import Mathlib

/-!
Shallow embedding of the CloudPedagogy "AI Capability Programme Mapping"
application (src/App.tsx together with src/content/framing.ts and
src/content/domains.ts): JSON-reachable JavaScript runtime values, the state
normalizer, the persistence fallback, the coverage/observation engine, the
Markdown report builder, and the import/export filename logic.
-/

/-- A JSON-reachable JavaScript runtime value.  Numbers are modelled as
integers; no behaviour relevant here depends on fractional values. -/
inductive JValue where
  | jnull
  | jbool (b : Bool)
  | jnum (n : Int)
  | jstr (s : String)
  | jarr (elems : List JValue)
  | jobj (fields : List (String × JValue))

/-- A JavaScript object's own enumerable properties, in property order. -/
abbrev JObj := List (String × JValue)

/-- First-match property lookup (JS property access; the property lists built
by the functions below never repeat a key). -/
def jsLookup : JObj → String → Option JValue
  | [], _ => none
  | (k, v) :: fs, key => if k = key then some v else jsLookup fs key

/-- The property write performed by object spread: an existing key is updated
in place (keeping its position), a new key is appended in insertion order. -/
def objInsert (fs : JObj) (k : String) (v : JValue) : JObj :=
  if fs.any (fun p => p.1 = k) then
    fs.map (fun p => if p.1 = k then (k, v) else p)
  else
    fs ++ [(k, v)]

/-- Object-literal spread `\x7b ...base, ...src \x7d`: the base object's fields
overlaid, property by property, with the source object's fields. -/
def spreadInto (base : JObj) (src : JObj) : JObj :=
  src.foldl (fun acc p => objInsert acc p.1 p.2) base

/-- JavaScript truthiness, restricted to JSON-reachable values. -/
def truthy : JValue → Bool
  | .jnull => false
  | .jbool b => b
  | .jnum n => n != 0
  | .jstr s => s != ""
  | .jarr _ => true
  | .jobj _ => true

/-- The six fixed domain keys (src/content/domains.ts, type DomainKey). -/
inductive DomainKey where
  | awareness
  | coagency
  | practice
  | ethics
  | governance
  | reflection
deriving DecidableEq

/-- The string form of a domain key, as it appears in JSON data. -/
def DomainKey.str : DomainKey → String
  | .awareness => "awareness"
  | .coagency => "coagency"
  | .practice => "practice"
  | .ethics => "ethics"
  | .governance => "governance"
  | .reflection => "reflection"

/-- One entry of the static domain registry (src/content/domains.ts). -/
structure Domain where
  key : DomainKey
  name : String
  short : String
  prompt : String
deriving DecidableEq

/-- The fixed ordered domain registry DOMAINS (src/content/domains.ts). -/
def DOMAINS : List Domain :=
  [{ key := .awareness,
     name := "Awareness & Orientation",
     short := "Awareness",
     prompt := "Consider current AI awareness, assumptions, and shared understanding in this programme context." },
   { key := .coagency,
     name := "Human–AI Co-Agency",
     short := "Co-Agency",
     prompt := "Consider how people will partner with AI systems, maintain agency, and clarify roles and responsibilities." },
   { key := .practice,
     name := "Applied Practice & Innovation",
     short := "Practice",
     prompt := "Consider where learners apply AI in authentic practice, experimentation, and improvement—beyond surface tool use." },
   { key := .ethics,
     name := "Ethics, Equity & Impact",
     short := "Ethics",
     prompt := "Consider ethical risk, equity, accessibility, bias, and downstream impacts across learners and stakeholders." },
   { key := .governance,
     name := "Decision-Making & Governance",
     short := "Governance",
     prompt := "Consider decision ownership, approval processes, safeguards, documentation, and institutional alignment." },
   { key := .reflection,
     name := "Reflection, Learning & Renewal",
     short := "Renewal",
     prompt := "Consider how learning is reviewed, improved over time, and supported through reflective practice and feedback loops." }]

/-- The three item types (src/App.tsx, type MapItemType). -/
inductive MapItemType where
  | Module
  | Activity
  | Assessment
deriving DecidableEq

/-- PLURAL_LABELS (src/App.tsx line 41): section-heading plurals. -/
def PLURAL_LABELS : MapItemType → String
  | .Module => "Modules"
  | .Activity => "Activities"
  | .Assessment => "Assessments"

/-- An in-memory mapping item (src/App.tsx, type MapItem).  The `domains`
field is kept as a raw property list because `normalizeItems` can produce
property lists that stray from the declared Record type. -/
structure MapItem where
  id : String
  type : MapItemType
  name : String
  notes : String
  domains : JObj

/-- emptyDomains (src/App.tsx line 47): all six keys mapped to false. -/
def emptyDomains : JObj :=
  [("awareness", .jbool false),
   ("coagency", .jbool false),
   ("practice", .jbool false),
   ("ethics", .jbool false),
   ("governance", .jbool false),
   ("reflection", .jbool false)]

/-- newItem (src/App.tsx line 58).  `crypto.randomUUID()` is modelled by the
caller supplying the fresh id. -/
def newItem (id : String) (t : MapItemType) : MapItem :=
  { id := id, type := t, name := "", notes := "", domains := emptyDomains }

/-- Programme metadata (src/App.tsx, type ProgrammeDetails). -/
structure ProgrammeDetails where
  programmeTitle : String
  awardLevel : String
  department : String
  institution : String
  mappingDate : String
  version : String
deriving DecidableEq

/-- defaultProgrammeDetails (src/App.tsx line 71).  `todayISODate()` reads the
current date, modelled by the `today` parameter. -/
def defaultProgrammeDetails (today : String) : ProgrammeDetails :=
  { programmeTitle := ""
    awardLevel := ""
    department := ""
    institution := ""
    mappingDate := today
    version := "v0.1" }

/-- Property access `v.k` on an arbitrary value: only real objects yield a
property; every other value (including arrays, whose only own properties are
numeric indices and whose named fields here are absent) yields undefined,
modelled as `none`. -/
def jsGetField (v : JValue) (k : String) : Option JValue :=
  match v with
  | .jobj fs => jsLookup fs k
  | _ => none

/-- coerceMapItemType (src/App.tsx line 82): the three exact string literals
pass through, anything else becomes Module. -/
def coerceMapItemType : Option JValue → MapItemType
  | some (.jstr "Module") => .Module
  | some (.jstr "Activity") => .Activity
  | some (.jstr "Assessment") => .Assessment
  | _ => .Module

/-- Array spread into an object literal: index keys "0", "1", ... -/
def indexFields : Nat → List JValue → JObj
  | _, [] => []
  | i, x :: xs => (toString i, x) :: indexFields (i + 1) xs

/-- The source operand of the domains spread (src/App.tsx line 98):
`typeof it?.domains === "object" && it?.domains ? it.domains : \x7b\x7d`.
Objects pass through; arrays are typeof "object" and truthy, so they spread
their index properties; null is typeof "object" but falsy; everything else is
not typeof "object". -/
def domainsSource : Option JValue → JObj
  | some (.jobj fs) => fs
  | some (.jarr xs) => indexFields 0 xs
  | _ => []

/-- The per-element body of the `arr.map` in normalizeItems
(src/App.tsx lines 91–100).  `freshId` stands for the `crypto.randomUUID()`
call made when the source id is not a string. -/
def normalizeOne (freshId : String) (v : JValue) : MapItem :=
  { id := match jsGetField v "id" with | some (.jstr s) => s | _ => freshId
    type := coerceMapItemType (jsGetField v "type")
    name := match jsGetField v "name" with | some (.jstr s) => s | _ => ""
    notes := match jsGetField v "notes" with | some (.jstr s) => s | _ => ""
    domains := spreadInto emptyDomains (domainsSource (jsGetField v "domains")) }

/-- `arr.map((it) => ...)` with the fresh-id calls numbered in element order. -/
def normalizeFrom (freshId : Nat → String) : Nat → List JValue → List MapItem
  | _, [] => []
  | i, x :: xs => normalizeOne (freshId i) x :: normalizeFrom freshId (i + 1) xs

/-- normalizeItems (src/App.tsx lines 87–101).  A missing value (undefined)
is `none`; `freshId` numbers the `crypto.randomUUID()` calls. -/
def normalizeItems (freshId : Nat → String) (itemsRaw : Option JValue) : List MapItem :=
  match itemsRaw with
  | some (.jarr l) =>
      if l.isEmpty then [newItem (freshId 0) .Module]
      else normalizeFrom freshId 0 l
  | _ => [newItem (freshId 0) .Module]

/-- One field of normalizeProgramme: keep a string, otherwise the default. -/
def progField (fs : JObj) (k : String) (dflt : String) : String :=
  match jsLookup fs k with
  | some (.jstr s) => s
  | _ => dflt

/-- normalizeProgramme (src/App.tsx lines 103–115).  The guard
`p && typeof p === "object"` admits objects and arrays; the six named fields
are absent on arrays, so only real objects contribute fields. -/
def normalizeProgramme (today : String) (p : Option JValue) : ProgrammeDetails :=
  let fs : JObj := match p with | some (.jobj fields) => fields | _ => []
  let base := defaultProgrammeDetails today
  { programmeTitle := progField fs "programmeTitle" base.programmeTitle
    awardLevel := progField fs "awardLevel" base.awardLevel
    department := progField fs "department" base.department
    institution := progField fs "institution" base.institution
    mappingDate := progField fs "mappingDate" base.mappingDate
    version := progField fs "version" base.version }

/-- Outcome of reading the persisted storage slot: no entry (getItem returned
null, or an empty and hence falsy string), an entry that JSON.parse throws on,
or a successfully parsed JSON value. -/
inductive StoredEntry where
  | missing
  | unparseable
  | parsed (v : JValue)

/-- loadState (src/App.tsx lines 117–130): both the no-entry early return and
the catch branch produce the full-default state. -/
def loadState (today : String) (freshId : Nat → String) :
    StoredEntry → ProgrammeDetails × List MapItem
  | .missing => (defaultProgrammeDetails today, [newItem (freshId 0) .Module])
  | .unparseable => (defaultProgrammeDetails today, [newItem (freshId 0) .Module])
  | .parsed v =>
      (normalizeProgramme today (jsGetField v "programme"),
       normalizeItems freshId (jsGetField v "items"))

/-- How handleImportFile returns to its caller: the "could not be parsed as
JSON" alert, the "does not look like a programme mapping export" alert, or the
destructive-replacement confirmation carrying the normalized state. -/
inductive ImportOutcome where
  | notJSON
  | notRecognized
  | confirmImport (programme : ProgrammeDetails) (items : List MapItem)

/-- handleImportFile (src/App.tsx lines 457–485) up to the confirmation
dialog.  `parsed` is the JSON.parse outcome (`none` when parsing throws);
`Array.isArray(nextItems)` always holds for the result of `arr.map`, so the
guard reduces to the emptiness test. -/
def handleImportFile (freshId : Nat → String) (today : String)
    (parsed : Option JValue) : ImportOutcome :=
  match parsed with
  | none => .notJSON
  | some v =>
      let nextProgramme := normalizeProgramme today (jsGetField v "programme")
      let nextItems := normalizeItems freshId (jsGetField v "items")
      if nextItems.isEmpty then .notRecognized
      else .confirmImport nextProgramme nextItems

/-- Character-wise ASCII lowering, modelling `String.prototype.toLowerCase`
on the ASCII inputs handled here. -/
def jsToLower (s : String) : String :=
  String.mk (s.toList.map Char.toLower)

/-- A character the slug regex `[^a-z0-9]+` leaves alone (after lowering). -/
def isSlugChar (c : Char) : Bool :=
  ('a' ≤ c && c ≤ 'z') || ('0' ≤ c && c ≤ '9')

/-- `.replace(/[^a-z0-9]+/g, "-")`: every maximal run of non-slug characters
becomes a single hyphen.  The flag records whether the previous character was
part of such a run. -/
def collapseAux : Bool → List Char → List Char
  | _, [] => []
  | inRun, c :: cs =>
      if isSlugChar c then c :: collapseAux false cs
      else if inRun then collapseAux inRun cs
      else '-' :: collapseAux true cs

/-- The `^-` alternative of `.replace(/(^-|-$)/g, "")`: one leading hyphen. -/
def dropLeadingHyphen : List Char → List Char
  | '-' :: cs => cs
  | l => l

/-- The `-$` alternative of `.replace(/(^-|-$)/g, "")`: one trailing hyphen. -/
def dropTrailingHyphen (l : List Char) : List Char :=
  (dropLeadingHyphen l.reverse).reverse

/-- safeSlug (src/App.tsx lines 154–159): lowercase, collapse non-alphanumeric
runs to single hyphens, strip a leading and a trailing hyphen (after the
collapse at most one of each can exist). -/
def safeSlug (input : String) : String :=
  String.mk (dropTrailingHyphen (dropLeadingHyphen
    (collapseAux false (jsToLower input).toList)))

/-- The `<slug>-<date>` filename stem shared by exportJSON and exportMarkdown
(src/App.tsx lines 429–432 and 437–439).  `today` models `todayISODate()`. -/
def exportFilenameBase (programme : ProgrammeDetails) (today : String) : String :=
  let safeTitle0 :=
    safeSlug (if programme.programmeTitle = "" then "programme-mapping"
              else programme.programmeTitle)
  let safeTitle := if safeTitle0 = "" then "programme-mapping" else safeTitle0
  let date := if programme.mappingDate = "" then today else programme.mappingDate
  safeTitle ++ "-" ++ date

/-- The JSON export's download filename (src/App.tsx line 432). -/
def exportJSONFilename (programme : ProgrammeDetails) (today : String) : String :=
  exportFilenameBase programme today ++ ".json"

/-- The Markdown export's download filename (src/App.tsx line 450). -/
def exportMarkdownFilename (programme : ProgrammeDetails) (today : String) : String :=
  exportFilenameBase programme today ++ ".md"

/-- Truthiness of the property `k` on a raw domain-tag property list. -/
def domLookupTruthy (fs : JObj) (k : DomainKey) : Bool :=
  match jsLookup fs k.str with
  | some v => truthy v
  | none => false

/-- Truthiness of `item.domains[k]`. -/
def domTruthy (it : MapItem) (k : DomainKey) : Bool :=
  domLookupTruthy it.domains k

/-- coverage (src/App.tsx lines 308–325): for each tracked key, the number of
items whose `domains[k]` is truthy.  The source iterates each item's own
property list and increments `counts[k]`; for each of the six tracked keys
this is exactly one increment per item whose `k` property is present and
truthy.  (Increments under other keys land outside the six tracked counters
and are never read.) -/
def coverage (items : List MapItem) (k : DomainKey) : Nat :=
  items.countP (fun it => domTruthy it k)

/-- `DOMAINS.reduce((sum, d) => sum + coverage[d.key], 0)` — the total tag
count, computed identically at src/App.tsx lines 181, 330 and 378. -/
def totalTagged (cov : DomainKey → Nat) : Nat :=
  DOMAINS.foldl (fun sum d => sum + cov d.key) 0

/-- totalDomainTags (src/App.tsx lines 329–331). -/
def totalDomainTags (items : List MapItem) : Nat :=
  totalTagged (coverage items)

/-- hasAnyTag (src/App.tsx line 333). -/
def hasAnyTag (items : List MapItem) : Bool :=
  decide (0 < totalDomainTags items)

/-- The `disabled=\x7b!hasAnyTag\x7d` guard shared by both export buttons
(src/App.tsx lines 517 and 520). -/
def exportButtonsDisabled (items : List MapItem) : Bool :=
  !hasAnyTag items

/-- Stable insertion step of the descending sort: the inserted element (which
originates earlier in the input than everything already inserted) is placed
before the first element whose count does not exceed its own. -/
def insertDesc (cov : DomainKey → Nat) (d : Domain) : List Domain → List Domain
  | [] => [d]
  | e :: es =>
      if cov e.key ≤ cov d.key then d :: e :: es
      else e :: insertDesc cov d es

/-- `[...DOMAINS].sort((a, b) => coverage[b.key] - coverage[a.key])`
(src/App.tsx line 381).  The ECMAScript sort with a consistent comparator is
required to be stable and sorted, which determines the result uniquely;
stable descending insertion sort realises it. -/
def sortDesc (cov : DomainKey → Nat) : List Domain → List Domain
  | [] => []
  | d :: ds => insertDesc cov d (sortDesc cov ds)

/-- The sorted registry used by the observations block. -/
def sortedDomains (items : List MapItem) : List Domain :=
  sortDesc (coverage items) DOMAINS

/-- `sorted[0]` (src/App.tsx line 382): the "most represented" pick. -/
def mostDomain (items : List MapItem) : Option Domain :=
  (sortedDomains items).head?

/-- `sorted[sorted.length - 1]` (src/App.tsx line 383): the "least
represented" pick. -/
def leastDomain (items : List MapItem) : Option Domain :=
  (sortedDomains items).getLast?

/-- `DOMAINS.filter((d) => coverage[d.key] === 0)` (src/App.tsx line 400). -/
def zeroDomains (items : List MapItem) : List Domain :=
  DOMAINS.filter (fun d => coverage items d.key = 0)

/-- The `s`-suffix pluralisation used throughout the UI strings. -/
def pluralS (n : Nat) : String :=
  if n = 1 then "" else "s"

/-- observations (src/App.tsx lines 369–419): the ordered observation
sentences derived from the item list. -/
def observations (items : List MapItem) : List String :=
  let cov := coverage items
  let totalItems := items.length
  let first :=
    "You mapped " ++ toString totalItems ++ " item" ++ pluralS totalItems ++
      ". Domain tagging indicates where attention is currently concentrated."
  let closing :=
    "Treat these signals as prompts for discussion, not as performance scores."
  let middle :=
    if 0 < totalTagged cov then
      (match mostDomain items with
       | some m =>
           ["The most represented domain is **" ++ m.name ++ "** (" ++
              toString (cov m.key) ++ " item" ++ pluralS (cov m.key) ++ ")."]
       | none => []) ++
      (match leastDomain items with
       | some m =>
           ["The least represented domain is **" ++ m.name ++ "** (" ++
              toString (cov m.key) ++ " item" ++ pluralS (cov m.key) ++ ")."]
       | none => []) ++
      (if (zeroDomains items).isEmpty then []
       else
         ["No items were tagged for: " ++
            String.intercalate ", " ((zeroDomains items).map (fun d => d.name)) ++
            ". This may indicate a gap, or that the domain is addressed implicitly rather than explicitly."])
    else
      ["No domain tags yet. Add a few items and tag at least one domain to generate coverage insights."]
  first :: middle ++ [closing]

/-- TOOL_NAME (src/content/framing.ts). -/
def TOOL_NAME : String := "AI Capability Programme Mapping"

/-- SUBTITLE (src/content/framing.ts). -/
def SUBTITLE : String :=
  "Map modules, activities, and assessments against the six domains of AI capability to support reflective discussion of coverage, balance, and design priorities."

/-- PURPOSE_TEXT (src/content/framing.ts). -/
def PURPOSE_TEXT : String :=
  "This tool supports reflective thinking and discussion. It does not provide definitive answers, recommendations, or compliance decisions."

/-- LIMITATIONS_TEXT (src/content/framing.ts). -/
def LIMITATIONS_TEXT : String :=
  "This tool is designed to support reflective practice and informed discussion. It does not replace professional judgement, institutional policy, or formal governance processes."

/-- PRIVACY_TEXT (src/content/framing.ts). -/
def PRIVACY_TEXT : String :=
  "This tool runs locally in your browser. Data is not sent anywhere by default."

/-- escapePipes (src/App.tsx line 161): `s.replace(/\|/g, "\\|")`. -/
def escapePipes (s : String) : String :=
  String.mk ((s.toList.map (fun c => if c = '|' then ['\\', '|'] else [c])).flatten)

/-- The `value?.trim() || "—"` rendering of programme-detail fields
(src/App.tsx lines 192–197). -/
def orDash (s : String) : String :=
  if s.trim = "" then "—" else s.trim

/-- The active short labels of an item, in registry order
(src/App.tsx line 249). -/
def itemTags (it : MapItem) : List String :=
  (DOMAINS.filter (fun d => domTruthy it d.key)).map (fun d => d.short)

/-- One table row of the per-type item table (src/App.tsx lines 247–257). -/
def itemRowLine (idx : Nat) (it : MapItem) : String :=
  let name := if it.name.trim = "" then "Untitled" else it.name.trim
  let tags := itemTags it
  let notes := it.notes.trim
  "| " ++ toString (idx + 1) ++ " | " ++ escapePipes name ++ " | " ++
    (if tags.isEmpty then "_None_"
     else escapePipes (String.intercalate ", " tags)) ++
    " | " ++ (if notes = "" then "_—_" else escapePipes notes) ++ " |"

/-- `list.forEach((it, idx) => ...)`: the rows of one item table. -/
def itemRowLines : Nat → List MapItem → List String
  | _, [] => []
  | idx, it :: rest => itemRowLine idx it :: itemRowLines (idx + 1) rest

/-- The per-type grouping (src/App.tsx lines 178–179): filtering preserves the
original item order within each type. -/
def groupItems (items : List MapItem) (t : MapItemType) : List MapItem :=
  items.filter (fun it => it.type == t)

/-- renderType (src/App.tsx lines 233–260): the lines one item-type section
contributes — heading, blank line, then either the italic empty-group
placeholder or the table. -/
def renderTypeLines (groups : MapItemType → List MapItem) (t : MapItemType) :
    List String :=
  let list := groups t
  ("### " ++ PLURAL_LABELS t) :: "" ::
    (if list.isEmpty then
      ["_(No " ++ jsToLower (PLURAL_LABELS t) ++ " added.)_", ""]
    else
      "| # | Item | Domain tags | Notes |" :: "|---:|---|---|---|" ::
        (itemRowLines 0 list ++ [""]))

/-- The coverage-snapshot table rows (src/App.tsx lines 211–213). -/
def coverageLines (cov : DomainKey → Nat) : List String :=
  DOMAINS.map (fun d =>
    "| " ++ escapePipes d.name ++ " | " ++ toString (cov d.key) ++ " |")

/-- Every line buildMarkdown pushes before the three item-type sections
(src/App.tsx lines 184–231). -/
def buildMarkdownHead (toolName exportedAtISO today : String)
    (programme : ProgrammeDetails) (cov : DomainKey → Nat)
    (obs : List String) : List String :=
  let programmeTitle :=
    (if programme.programmeTitle = "" then "Programme mapping"
     else programme.programmeTitle).trim
  let mappingDate :=
    (if programme.mappingDate = "" then today else programme.mappingDate).trim
  ["# " ++ programmeTitle, "",
   "**Tool:** " ++ toolName,
   "**Exported:** " ++ exportedAtISO, "",
   "## Programme details", "",
   "- **Programme title:** " ++ orDash programme.programmeTitle,
   "- **Award / level:** " ++ orDash programme.awardLevel,
   "- **Department / faculty:** " ++ orDash programme.department,
   "- **Institution:** " ++ orDash programme.institution,
   "- **Mapping date:** " ++ mappingDate,
   "- **Version / notes:** " ++ orDash programme.version, "",
   "## Purpose and framing", "", PURPOSE_TEXT, "", PRIVACY_TEXT, "",
   "## Coverage snapshot", "",
   "| Domain | Tagged items |", "|---|---:|"] ++
  coverageLines cov ++ [""] ++
  ["## Key observations", ""] ++
  obs.map (fun line => "- " ++ line) ++ [""] ++
  ["## Domain lenses", ""] ++
  DOMAINS.map (fun d => "- **" ++ d.name ++ ":** " ++ d.prompt) ++ [""] ++
  ["## Mapping items (QA-ready view)", "",
   "_Items are grouped by type and include domain tags. Treat tags as interpretive lenses for discussion, not performance scores._",
   ""]

/-- Every line buildMarkdown pushes after the three item-type sections
(src/App.tsx lines 266–291). -/
def buildMarkdownTail (items : List MapItem) (cov : DomainKey → Nat) :
    List String :=
  let tt := totalTagged cov
  ["## Interpretation prompts", "",
   "- What does the current pattern of domain tags suggest about the programme’s explicit emphasis? (" ++
     toString items.length ++ " item" ++ pluralS items.length ++ ", " ++
     toString tt ++ " domain tag" ++ pluralS tt ++ ")",
   "- Which domains are highly visible because they are easy to describe (or easy to evidence), rather than most important?",
   "- Which domains might be present implicitly but not visible in module/activity/assessment descriptions?",
   "- Where are students required to exercise judgement with AI, not just use tools?",
   "- What governance or ethical risks are “owned” nowhere in the programme design?",
   "- What would it look like to strengthen one underrepresented domain without increasing workload?",
   "",
   "## Use and limitations", "", LIMITATIONS_TEXT, "",
   "_Next step (optional): paste this export into programme documentation (or QA/review notes), then revisit during review cycles._",
   ""]

/-- buildMarkdown (src/App.tsx lines 165–293) as its ordered line list: the
header lines, the three item-type sections in the fixed order Module,
Activity, Assessment (lines 262–264), then the closing lines. -/
def buildMarkdownLines (toolName exportedAtISO today : String)
    (programme : ProgrammeDetails) (items : List MapItem)
    (cov : DomainKey → Nat) (obs : List String) : List String :=
  buildMarkdownHead toolName exportedAtISO today programme cov obs ++
    renderTypeLines (groupItems items) .Module ++
    renderTypeLines (groupItems items) .Activity ++
    renderTypeLines (groupItems items) .Assessment ++
    buildMarkdownTail items cov

/-- The final Markdown document: `md.join("\n")` (src/App.tsx line 293). -/
def buildMarkdown (toolName exportedAtISO today : String)
    (programme : ProgrammeDetails) (items : List MapItem)
    (cov : DomainKey → Nat) (obs : List String) : String :=
  String.intercalate "\n"
    (buildMarkdownLines toolName exportedAtISO today programme items cov obs)

/-! ## Helper lemmas -/

theorem normalizeFrom_length (freshId : Nat → String) :
    ∀ (i : Nat) (l : List JValue), (normalizeFrom freshId i l).length = l.length := by
  intro i l
  induction l generalizing i with
  | nil => rfl
  | cons x xs ih => simp [normalizeFrom, ih]

theorem normalizeFrom_getElem? (freshId : Nat → String) :
    ∀ (l : List JValue) (i j : Nat),
      (normalizeFrom freshId i l)[j]? =
        (l[j]?).map (fun x => normalizeOne (freshId (i + j)) x) := by
  intro l
  induction l with
  | nil => intro i j; simp [normalizeFrom]
  | cons x xs ih =>
      intro i j
      cases j with
      | zero => simp [normalizeFrom]
      | succ j =>
          have harith : i + 1 + j = i + (j + 1) := by omega
          simp [normalizeFrom, ih (i + 1) j, harith]

theorem normalizeItems_ne_nil (freshId : Nat → String) (v : Option JValue) :
    normalizeItems freshId v ≠ [] := by
  unfold normalizeItems
  split
  · rename_i l
    by_cases h : l.isEmpty
    · simp [h]
    · rw [if_neg h]
      cases l with
      | nil => simp at h
      | cons x xs => simp [normalizeFrom]
  · simp

/-! ## Claim C1 -/

/-- The items value of a source object whose `domains` field carries a
non-boolean entry and a key outside the six canonical ones. -/
def c1Input : Option JValue :=
  some (.jarr [.jobj [("domains",
    .jobj [("awareness", .jstr "yes"), ("extra", .jbool true)])]])

/-- C1.  The claim that every normalizeItems output carries exactly the six
canonical keys with boolean values fails: the unfiltered object spread at
src/App.tsx line 96–99 keeps the non-boolean value under "awareness" and
retains the extra key "extra", producing a seven-key property list. -/
theorem c1_normalizeItems_spread_violates_invariant :
    normalizeItems (fun _ => "fresh") c1Input =
      [{ id := "fresh", type := .Module, name := "", notes := "",
         domains := [("awareness", .jstr "yes"), ("coagency", .jbool false),
                     ("practice", .jbool false), ("ethics", .jbool false),
                     ("governance", .jbool false), ("reflection", .jbool false),
                     ("extra", .jbool true)] }] ∧
    (normalizeItems (fun _ => "fresh") c1Input).map
        (fun it => it.domains.length) = [7] :=
  ⟨rfl, rfl⟩

/-! ## Claim C2 -/

/-- The parsed form of the JSON text
`\x7b"programme":\x7b"programmeTitle":"X"\x7d,"items":[]\x7d`. -/
def c2Value : JValue :=
  .jobj [("programme", .jobj [("programmeTitle", .jstr "X")]),
         ("items", .jarr [])]

/-- C2, counterexample.  Importing the scenario file does not signal the
"not a recognized mapping export" error: the outcome is the confirmation
step, not the error. -/
theorem c2_counterexample :
    handleImportFile (fun _ => "fresh") "2024-01-01" (some c2Value) ≠
      ImportOutcome.notRecognized := by
  have h : handleImportFile (fun _ => "fresh") "2024-01-01" (some c2Value) =
      .confirmImport
        { programmeTitle := "X", awardLevel := "", department := "",
          institution := "", mappingDate := "2024-01-01", version := "v0.1" }
        [newItem "fresh" .Module] := rfl
  rw [h]
  intro hc
  exact ImportOutcome.noConfusion hc

/-- C2, amended.  For any parseable JSON value the "not a recognized mapping
export" signal is unreachable, because normalizeItems never yields an empty
list; in particular the scenario file proceeds to the destructive-replacement
confirmation carrying programme title "X" and one freshly created default
Module item. -/
theorem c2_import_empty_items_proceeds (freshId : Nat → String) (today : String) :
    (∀ v : JValue,
      handleImportFile freshId today (some v) ≠ ImportOutcome.notRecognized) ∧
    handleImportFile freshId today (some c2Value) =
      .confirmImport
        { programmeTitle := "X", awardLevel := "", department := "",
          institution := "", mappingDate := today, version := "v0.1" }
        [newItem (freshId 0) .Module] := by
  constructor
  · intro v
    have hne := normalizeItems_ne_nil freshId (jsGetField v "items")
    simp only [handleImportFile]
    rw [if_neg (by simpa [List.isEmpty_iff] using hne)]
    intro hc
    exact ImportOutcome.noConfusion hc
  · rfl

/-! ## Claim C5 -/

/-- `Array.isArray` on the raw items value. -/
def isJsArray : Option JValue → Bool
  | some (.jarr _) => true
  | _ => false

/-- C5.  normalizeItems always yields a non-empty list, and a non-array or
empty-array input yields exactly one freshly created default Module item. -/
theorem c5_normalizeItems_nonempty (freshId : Nat → String) (v : Option JValue) :
    normalizeItems freshId v ≠ [] ∧
    (isJsArray v = false ∨ v = some (.jarr []) →
      normalizeItems freshId v = [newItem (freshId 0) .Module]) := by
  refine ⟨normalizeItems_ne_nil freshId v, ?_⟩
  rintro (h | rfl)
  · match v, h with
    | none, _ => rfl
    | some .jnull, _ => rfl
    | some (.jbool b), _ => rfl
    | some (.jnum n), _ => rfl
    | some (.jstr s), _ => rfl
    | some (.jobj fs), _ => rfl
  · rfl

/-- C5, witness: a non-array input produces the single default Module item. -/
theorem c5_witness :
    normalizeItems (fun _ => "w") (some .jnull) = [newItem "w" .Module] :=
  (c5_normalizeItems_nonempty (fun _ => "w") (some .jnull)).2 (Or.inl rfl)

/-! ## Claim C6 -/

/-- C6.  A missing storage entry, or an entry JSON.parse rejects (for example
the literal text "not json"), loads as the full-default state: a default
programme (blank strings, today's date, version "v0.1") and one default
Module item; the total function never fails. -/
theorem c6_loadState_defaults (today : String) (freshId : Nat → String) :
    loadState today freshId .missing =
      ({ programmeTitle := "", awardLevel := "", department := "",
         institution := "", mappingDate := today, version := "v0.1" },
       [newItem (freshId 0) .Module]) ∧
    loadState today freshId .unparseable =
      ({ programmeTitle := "", awardLevel := "", department := "",
         institution := "", mappingDate := today, version := "v0.1" },
       [newItem (freshId 0) .Module]) :=
  ⟨rfl, rfl⟩

/-! ## Claim C7 -/

/-- C7.  The export filename stem is the slugified programme title followed by
the mapping date; the scenario title "MSc Public Health!!" with mapping date
"2024-03-01" yields "msc-public-health-2024-03-01". -/
theorem c7_export_filename_slug :
    (∀ (p : ProgrammeDetails) (today : String),
        p.programmeTitle ≠ "" → safeSlug p.programmeTitle ≠ "" →
        p.mappingDate ≠ "" →
        exportFilenameBase p today =
          safeSlug p.programmeTitle ++ "-" ++ p.mappingDate) ∧
    (∀ today : String,
        exportFilenameBase
          { programmeTitle := "MSc Public Health!!", awardLevel := "",
            department := "", institution := "", mappingDate := "2024-03-01",
            version := "v0.1" } today = "msc-public-health-2024-03-01") := by
  constructor
  · intro p today h1 h2 h3
    simp only [exportFilenameBase]
    rw [if_neg h1, if_neg h2, if_neg h3]
  · intro today
    rfl

/-- C7, witness: a concrete instantiation of the general filename shape. -/
theorem c7_witness :
    exportFilenameBase
      { programmeTitle := "Data & AI", awardLevel := "", department := "",
        institution := "", mappingDate := "2025-01-02", version := "" } "t" =
      safeSlug "Data & AI" ++ "-" ++ "2025-01-02" :=
  c7_export_filename_slug.1 _ "t" (by decide) (by decide) (by decide)

/-! ## Claim C10 -/

/-- C10.  Every freshly created item — of any of the three types addItem can
request — has empty name and notes with all six domain tags false; hence the
full-default state (one fresh Module item) has total tag count zero, which
disables both exports. -/
theorem c10_newItem_blank_and_exports_disabled (id : String) (t : MapItemType) :
    (newItem id t).name = "" ∧
    (newItem id t).notes = "" ∧
    (∀ k : DomainKey, domTruthy (newItem id t) k = false) ∧
    totalDomainTags [newItem id .Module] = 0 ∧
    exportButtonsDisabled [newItem id .Module] = true := by
  refine ⟨rfl, rfl, ?_, rfl, rfl⟩
  intro k
  cases k <;> rfl

/-! ## Claim C3: stable-sort analysis of the observation picks -/

/-- The first registry-order domain attaining the maximum count — the spec's
tie-break reading ("ties broken by original registry order"). -/
def firstMaxByCount (cov : DomainKey → Nat) : List Domain → Option Domain
  | [] => none
  | d :: ds =>
      match firstMaxByCount cov ds with
      | none => some d
      | some m => if cov d.key < cov m.key then some m else some d

/-- The last registry-order domain attaining the minimum count — what the
code's `sorted[sorted.length - 1]` actually picks. -/
def lastMinByCount (cov : DomainKey → Nat) : List Domain → Option Domain
  | [] => none
  | d :: ds =>
      match lastMinByCount cov ds with
      | none => some d
      | some m => if cov d.key < cov m.key then some d else some m

/-- The first registry-order domain attaining the minimum count — what the
claim asserts for the "least represented" pick. -/
def firstMinByCount (cov : DomainKey → Nat) : List Domain → Option Domain
  | [] => none
  | d :: ds =>
      match firstMinByCount cov ds with
      | none => some d
      | some m => if cov m.key < cov d.key then some m else some d

theorem insertDesc_ne_nil (cov : DomainKey → Nat) (d : Domain) :
    ∀ s, insertDesc cov d s ≠ [] := by
  intro s
  cases s with
  | nil => simp [insertDesc]
  | cons e es =>
      unfold insertDesc
      split <;> simp

theorem mem_insertDesc (cov : DomainKey → Nat) (d : Domain) :
    ∀ s x, x ∈ insertDesc cov d s → x = d ∨ x ∈ s := by
  intro s
  induction s with
  | nil =>
      intro x hx
      simp [insertDesc] at hx
      exact Or.inl hx
  | cons e es ih =>
      intro x hx
      unfold insertDesc at hx
      split at hx
      · rcases List.mem_cons.mp hx with rfl | hx'
        · exact Or.inl rfl
        · exact Or.inr hx'
      · rcases List.mem_cons.mp hx with rfl | hx'
        · exact Or.inr (List.mem_cons_self _ _)
        · rcases ih x hx' with h | h
          · exact Or.inl h
          · exact Or.inr (List.mem_cons_of_mem _ h)

/-- Descending sortedness by count. -/
def SortedDesc (cov : DomainKey → Nat) (l : List Domain) : Prop :=
  List.Pairwise (fun a b => cov b.key ≤ cov a.key) l

theorem sortedDesc_insertDesc (cov : DomainKey → Nat) (d : Domain) :
    ∀ s, SortedDesc cov s → SortedDesc cov (insertDesc cov d s) := by
  intro s
  induction s with
  | nil => intro _; simp [insertDesc, SortedDesc]
  | cons e es ih =>
      intro hs
      rcases List.pairwise_cons.mp hs with ⟨he, hes⟩
      unfold insertDesc
      split
      · rename_i hle
        refine List.pairwise_cons.mpr ⟨?_, hs⟩
        intro x hx
        rcases List.mem_cons.mp hx with rfl | hx'
        · exact hle
        · exact Nat.le_trans (he x hx') hle
      · rename_i hgt
        refine List.pairwise_cons.mpr ⟨?_, ih hes⟩
        intro x hx
        rcases mem_insertDesc cov d es x hx with rfl | hx'
        · omega
        · exact he x hx'

theorem sortedDesc_sortDesc (cov : DomainKey → Nat) :
    ∀ l, SortedDesc cov (sortDesc cov l) := by
  intro l
  induction l with
  | nil => simp [sortDesc, SortedDesc]
  | cons d ds ih => exact sortedDesc_insertDesc cov d _ ih

theorem mem_of_getLast?_eq :
    ∀ (l : List Domain) (a : Domain), l.getLast? = some a → a ∈ l := by
  intro l
  induction l with
  | nil => intro a h; simp at h
  | cons x xs ih =>
      intro a h
      cases xs with
      | nil =>
          simp [List.getLast?_singleton] at h
          simp [h]
      | cons y ys =>
          rw [List.getLast?_cons_cons] at h
          exact List.mem_cons_of_mem _ (ih a h)

theorem head?_insertDesc (cov : DomainKey → Nat) (d : Domain) :
    ∀ s, (insertDesc cov d s).head? =
      some (match s.head? with
            | none => d
            | some e => if cov e.key ≤ cov d.key then d else e) := by
  intro s
  cases s with
  | nil => rfl
  | cons e es =>
      unfold insertDesc
      split
      · rename_i hle
        simp only [List.head?_cons]
        rw [if_pos hle]
      · rename_i hgt
        simp only [List.head?_cons]
        rw [if_neg hgt]

theorem head?_sortDesc (cov : DomainKey → Nat) :
    ∀ l, (sortDesc cov l).head? = firstMaxByCount cov l := by
  intro l
  induction l with
  | nil => rfl
  | cons d ds ih =>
      simp only [sortDesc, firstMaxByCount]
      rw [head?_insertDesc, ih]
      cases h : firstMaxByCount cov ds with
      | none => rfl
      | some m =>
          simp only []
          rcases le_or_lt (cov m.key) (cov d.key) with h1 | h1
          · rw [if_pos h1, if_neg (by omega)]
          · rw [if_neg (by omega), if_pos h1]

theorem getLast?_insertDesc (cov : DomainKey → Nat) (d : Domain) :
    ∀ s, SortedDesc cov s →
      (insertDesc cov d s).getLast? =
        some (match s.getLast? with
              | none => d
              | some m => if cov d.key < cov m.key then d else m) := by
  intro s
  induction s with
  | nil => intro _; rfl
  | cons e es ih =>
      intro hs
      rcases List.pairwise_cons.mp hs with ⟨he, hes⟩
      unfold insertDesc
      split
      · rename_i hle
        rw [List.getLast?_cons_cons]
        obtain ⟨m, hm⟩ : ∃ m, (e :: es).getLast? = some m := by
          cases hg : (e :: es).getLast? with
          | none => simp at hg
          | some m => exact ⟨m, rfl⟩
        rw [hm]
        simp only []
        have hmem := mem_of_getLast?_eq _ _ hm
        have hme : cov m.key ≤ cov e.key := by
          rcases List.mem_cons.mp hmem with rfl | hm'
          · exact Nat.le_refl _
          · exact he m hm'
        rw [if_neg (by omega)]
      · rename_i hgt
        have hne := insertDesc_ne_nil cov d es
        cases hI : insertDesc cov d es with
        | nil => exact absurd hI hne
        | cons y ys =>
            rw [List.getLast?_cons_cons, ← hI, ih hes]
            cases es with
            | nil =>
                simp only [List.getLast?_singleton]
                rw [if_pos (by omega)]
                rfl
            | cons f fs =>
                rw [List.getLast?_cons_cons]

theorem getLast?_sortDesc (cov : DomainKey → Nat) :
    ∀ l, (sortDesc cov l).getLast? = lastMinByCount cov l := by
  intro l
  induction l with
  | nil => rfl
  | cons d ds ih =>
      simp only [sortDesc, lastMinByCount]
      rw [getLast?_insertDesc cov d _ (sortedDesc_sortDesc cov ds), ih]
      cases h : lastMinByCount cov ds with
      | none => rfl
      | some m =>
          simp only []
          rcases Nat.lt_or_ge (cov d.key) (cov m.key) with h1 | h1
          · rw [if_pos h1, if_pos h1]
          · rw [if_neg (by omega), if_neg (by omega)]

/-- An item carrying all six tags — full tie across the six domains. -/
def c3AllTagsItem : MapItem :=
  { id := "i", type := .Module, name := "", notes := "",
    domains := [("awareness", .jbool true), ("coagency", .jbool true),
                ("practice", .jbool true), ("ethics", .jbool true),
                ("governance", .jbool true), ("reflection", .jbool true)] }

/-- C3, counterexample.  On a full six-way tie the code's "least represented"
pick is the last registry domain (Reflection, Learning & Renewal), not the
first registry domain among the minimum-count ones (Awareness & Orientation)
that a registry-order tie-break — "likewise" to the "most" pick — would
give. -/
theorem c3_counterexample :
    leastDomain [c3AllTagsItem] = DOMAINS[5]? ∧
    firstMinByCount (coverage [c3AllTagsItem]) DOMAINS = DOMAINS[0]? ∧
    DOMAINS[5]? ≠ DOMAINS[0]? := by
  refine ⟨by decide, by decide, by decide⟩

/-- C3, amended.  With a positive total tag count, the "most represented"
pick is the first registry-order domain among those with the maximum coverage
count, and the "least represented" pick is the last registry-order domain
among those with the minimum coverage count; both are deterministic functions
of the items. -/
theorem c3_most_least_registry_order (items : List MapItem)
    (h : 0 < totalDomainTags items) :
    mostDomain items = firstMaxByCount (coverage items) DOMAINS ∧
    leastDomain items = lastMinByCount (coverage items) DOMAINS :=
  ⟨head?_sortDesc (coverage items) DOMAINS,
   getLast?_sortDesc (coverage items) DOMAINS⟩

/-- C3, witness: the amended statement applied to a concrete tagged item. -/
theorem c3_witness :
    0 < totalDomainTags [c3AllTagsItem] ∧
    mostDomain [c3AllTagsItem] =
      firstMaxByCount (coverage [c3AllTagsItem]) DOMAINS ∧
    leastDomain [c3AllTagsItem] =
      lastMinByCount (coverage [c3AllTagsItem]) DOMAINS :=
  ⟨by decide, c3_most_least_registry_order [c3AllTagsItem] (by decide)⟩

/-! ## Claim C4 -/

/-- Domain tags in the canonical well-formed shape the application maintains:
exactly the six canonical keys, in registry order, each holding a boolean. -/
def mkDomains (f : DomainKey → Bool) : JObj :=
  [("awareness", .jbool (f .awareness)), ("coagency", .jbool (f .coagency)),
   ("practice", .jbool (f .practice)), ("ethics", .jbool (f .ethics)),
   ("governance", .jbool (f .governance)), ("reflection", .jbool (f .reflection))]

/-- The six-key boolean domain-tags invariant of the data model. -/
def WellFormedTags (fs : JObj) : Prop :=
  ∃ f : DomainKey → Bool, fs = mkDomains f

/-- The number of true (truthy) domain-tag entries recorded on one item. -/
def trueTagCount (it : MapItem) : Nat :=
  it.domains.countP (fun p => truthy p.2)

theorem totalTagged_eq (cov : DomainKey → Nat) :
    totalTagged cov =
      cov .awareness + cov .coagency + cov .practice + cov .ethics +
        cov .governance + cov .reflection := by
  simp [totalTagged, DOMAINS]

theorem coverage_cons (it : MapItem) (rest : List MapItem) (k : DomainKey) :
    coverage (it :: rest) k =
      (if domTruthy it k then 1 else 0) + coverage rest k := by
  simp [coverage, List.countP_cons]
  omega

theorem domTruthy_mkDomains (f : DomainKey → Bool) (k : DomainKey) :
    domLookupTruthy (mkDomains f) k = f k := by
  cases k <;> rfl

theorem countP_mkDomains (f : DomainKey → Bool) :
    (mkDomains f).countP (fun p => truthy p.2) =
      (if f .awareness then 1 else 0) + (if f .coagency then 1 else 0) +
        (if f .practice then 1 else 0) + (if f .ethics then 1 else 0) +
        (if f .governance then 1 else 0) + (if f .reflection then 1 else 0) := by
  simp [mkDomains, List.countP_cons, truthy]
  omega

/-- C4.  For items satisfying the six-key boolean invariant, the sum of the
six per-domain coverage counts (the code's `DOMAINS.reduce` over `coverage`)
equals the total number of true domain-tag entries across all items.  (That
the coverage mapping carries all six keys with non-negative counts is built
into its type `DomainKey → Nat`.) -/
theorem c4_coverage_sums_to_true_tags (items : List MapItem)
    (h : ∀ it ∈ items, WellFormedTags it.domains) :
    totalDomainTags items = (items.map trueTagCount).sum := by
  induction items with
  | nil => rfl
  | cons it rest ih =>
      obtain ⟨f, hf⟩ := h it (List.mem_cons_self it rest)
      have ih' := ih (fun x hx => h x (List.mem_cons_of_mem _ hx))
      have step : totalDomainTags (it :: rest) =
          trueTagCount it + totalDomainTags rest := by
        simp only [totalDomainTags, totalTagged_eq, coverage_cons, domTruthy,
          hf, domTruthy_mkDomains, trueTagCount, countP_mkDomains]
        ring
      rw [List.map_cons, List.sum_cons, step, ih']

/-- C4, witness: one well-formed item with a single tag. -/
theorem c4_witness :
    totalDomainTags
        [{ id := "w", type := .Activity, name := "", notes := "",
           domains := mkDomains (fun k => k == DomainKey.awareness) }] =
      ([{ id := "w", type := .Activity, name := "", notes := "",
          domains := mkDomains (fun k => k == DomainKey.awareness) }].map
        trueTagCount).sum := by
  refine c4_coverage_sums_to_true_tags _ ?_
  intro it hit
  rw [List.mem_singleton] at hit
  subst hit
  exact ⟨fun k => k == DomainKey.awareness, rfl⟩

/-! ## Claim C8 -/

/-- C8.  A non-empty array input maps one-to-one onto the output: same
length, and the element at each index is produced from the input element at
that index alone (with the fresh-id supply for that index). -/
theorem c8_normalizeItems_index_preserving (freshId : Nat → String)
    (l : List JValue) (h : l ≠ []) :
    (normalizeItems freshId (some (.jarr l))).length = l.length ∧
    ∀ i : Nat, (normalizeItems freshId (some (.jarr l)))[i]? =
      (l[i]?).map (fun x => normalizeOne (freshId i) x) := by
  have hne : l.isEmpty = false := by simpa [List.isEmpty_iff] using h
  constructor
  · simp [normalizeItems, hne, normalizeFrom_length]
  · intro i
    simp [normalizeItems, hne]
    have := normalizeFrom_getElem? freshId l 0 i
    simpa using this

/-- C8, witness: the map applied to a one-element array. -/
theorem c8_witness :
    (normalizeItems (fun n => toString n) (some (.jarr [.jnull]))).length = 1 ∧
    (normalizeItems (fun n => toString n) (some (.jarr [.jnull])))[0]? =
      some (normalizeOne "0" .jnull) := by
  have h := c8_normalizeItems_index_preserving (fun n => toString n) [.jnull]
    (by simp)
  exact ⟨h.1, (h.2 0).trans rfl⟩

/-! ## Claim C9 -/

/-- C9.  buildMarkdown always renders the three item-type sections in the
fixed order Modules, Activities, Assessments, and an empty type group is
rendered as its section heading followed by the italic "(No ... added.)"
placeholder line in place of a table. -/
theorem c9_markdown_sections (toolName exportedAtISO today : String)
    (programme : ProgrammeDetails) (items : List MapItem)
    (cov : DomainKey → Nat) (obs : List String) :
    (∃ pre post,
      buildMarkdownLines toolName exportedAtISO today programme items cov obs =
        pre ++ renderTypeLines (groupItems items) .Module ++
          renderTypeLines (groupItems items) .Activity ++
          renderTypeLines (groupItems items) .Assessment ++ post) ∧
    ∀ t : MapItemType, groupItems items t = [] →
      renderTypeLines (groupItems items) t =
        ["### " ++ PLURAL_LABELS t, "",
         "_(No " ++ jsToLower (PLURAL_LABELS t) ++ " added.)_", ""] := by
  constructor
  · exact ⟨buildMarkdownHead toolName exportedAtISO today programme cov obs,
           buildMarkdownTail items cov, rfl⟩
  · intro t ht
    simp [renderTypeLines, ht]

/-- C9, witness: with no items every group is empty; the Activities section
renders as heading plus placeholder. -/
theorem c9_witness :
    renderTypeLines (groupItems []) .Activity =
      ["### Activities", "", "_(No activities added.)_", ""] := by
  have h := (c9_markdown_sections "t" "e" "d" (defaultProgrammeDetails "d")
    [] (fun _ => 0) []).2 .Activity rfl
  exact h.trans (by rfl)
